import Mathlib

/-!
Verification of the task storage/query layer of `src/task_app.py`
(classes `Task` and `TaskManager`).

The Python code is embedded shallowly:

* `Task` is the record shape produced by deserialisation (fields
  `id`, `title`, `due_date`, `status`, `created_at`, per spec section 6
  and the attribute accesses throughout `TaskManager`).
* Persistence is modelled at the JSON-value level (`Json`), with the
  Python exceptions that `load_tasks` can see (`PyErr`).
* `TaskManager`'s collection plus its backing file form `TMState`;
  queries are pure functions on it, mutators return the flag the Python
  method returns together with the successor state.
* Methods that `task_app.py` calls but never defines
  (`Task.to_dict`, `Task.from_dict`, `TaskManager.get_next_id`) are
  modelled from the spec; their doc comments say so.
* `PyVal`/`PyTask`/`Task.init` embed the dynamically-typed
  `Task.__init__` as written, used to exhibit the argument-order slip
  in `add_task` (line 50 of the source).
-/

namespace TaskApp

/-- A task record: the field set named in spec section 6 and accessed as
attributes throughout `TaskManager` (`t.id`, `t.title`, `t.due_date`,
`t.status`, `t.created_at`). -/
structure Task where
  id : Int
  title : String
  due_date : Option String
  status : String
  created_at : String
deriving DecidableEq, Repr

/-- JSON values, the possible results of `json.load`. -/
inductive Json where
  | null : Json
  | num : Int → Json
  | str : String → Json
  | arr : List Json → Json
  | obj : List (String × Json) → Json

/-- The Python exceptions relevant to `load_tasks`: `json.JSONDecodeError`
and `KeyError` are caught by its `except` clause, `TypeError` is not. -/
inductive PyErr where
  | keyError : PyErr
  | typeError : PyErr
deriving DecidableEq, Repr


/-- The backing file `data/tasks.json`: absent, present with content that
fails JSON parsing, or present with content parsing to a JSON value. -/
inductive FileState where
  | missing : FileState
  | invalid : FileState
  | content : Json → FileState

/-- Python `d[k]` on a dict: the bound value, or `KeyError` if absent. -/
def lookupKey (kvs : List (String × Json)) (k : String) : Except PyErr Json :=
  match kvs.lookup k with
  | some v => .ok v
  | none => .error .keyError

/-- Modelled from the spec: `Task.from_dict` is called in `load_tasks`
(line 34) but defined nowhere in the source.  Spec section 6 fixes the
record fields (`title`, `due_date` nullable, `status`, `created_at`,
`id`); section 4.1 says deserialisation passes the stored timestamp
through.  Indexing a non-dict raises `TypeError`; a missing key raises
`KeyError`. -/
def Task.from_dict (j : Json) : Except PyErr Task :=
  match j with
  | .obj kvs =>
    match lookupKey kvs "title" with
    | .error e => .error e
    | .ok jt =>
      match lookupKey kvs "due_date" with
      | .error e => .error e
      | .ok jd =>
        match lookupKey kvs "status" with
        | .error e => .error e
        | .ok js =>
          match lookupKey kvs "created_at" with
          | .error e => .error e
          | .ok jc =>
            match lookupKey kvs "id" with
            | .error e => .error e
            | .ok ji =>
              match jt, jd, js, jc, ji with
              | .str t, .null, .str s, .str c, .num i => .ok ⟨i, t, none, s, c⟩
              | .str t, .str ds, .str s, .str c, .num i => .ok ⟨i, t, some ds, s, c⟩
              | _, _, _, _, _ => .error .typeError
  | _ => .error .typeError

/-- Modelled from the spec: `Task.to_dict` is called in `save_tasks`
(line 45) but defined nowhere in the source.  It serialises the record
fields of spec section 6. -/
def Task.to_dict (t : Task) : Json :=
  .obj [("title", .str t.title),
        ("due_date", match t.due_date with | none => .null | some d => .str d),
        ("status", .str t.status),
        ("created_at", .str t.created_at),
        ("id", .num t.id)]

/-- Python iteration `for x in data`: arrays yield their elements, dicts
their keys, strings their characters; other values raise `TypeError`. -/
def pyIter (j : Json) : Except PyErr (List Json) :=
  match j with
  | .arr xs => .ok xs
  | .obj kvs => .ok (kvs.map fun kv => Json.str kv.1)
  | .str s => .ok (s.data.map fun c => Json.str (String.mk [c]))
  | _ => .error .typeError

/-- The list comprehension `[Task.from_dict d for d in data]`: the first
exception aborts the whole comprehension. -/
def mapFromDict : List Json → Except PyErr (List Task)
  | [] => .ok []
  | j :: rest =>
    match Task.from_dict j with
    | .error e => .error e
    | .ok t =>
      match mapFromDict rest with
      | .error e => .error e
      | .ok ts => .ok (t :: ts)

/-- `TaskManager.load_tasks` (lines 28-40).  Returns the resulting
collection together with whether the warning was printed, or the
uncaught exception.  The `except` clause catches only
`json.JSONDecodeError` and `KeyError`. -/
def load_tasks (f : FileState) : Except PyErr (List Task × Bool) :=
  match f with
  | .missing => .ok ([], false)
  | .invalid => .ok ([], true)
  | .content j =>
    match pyIter j with
    | .error e => .error e
    | .ok items =>
      match mapFromDict items with
      | .ok ts => .ok (ts, false)
      | .error .keyError => .ok ([], true)
      | .error e => .error e

/-- `TaskManager.save_tasks` (lines 42-45): overwrite the file with the
JSON array of serialised tasks. -/
def save_tasks (tasks : List Task) : FileState :=
  .content (.arr (tasks.map Task.to_dict))

/-- The manager's mutable state: the in-memory collection plus the
backing file it saves to. -/
structure TMState where
  tasks : List Task
  file : FileState

/-- `TaskManager.get_task_by_id` (lines 67-72): linear scan, first match
or `None`. -/
def get_task_by_id (s : TMState) (task_id : Int) : Option Task :=
  s.tasks.find? fun t => t.id == task_id

/-- Python `a in b` on strings: substring containment. -/
def pyIn (needle haystack : String) : Bool :=
  decide (needle.data <:+: haystack.data)

/-- Python `s.lower()`: lower-case every character. -/
def pyLower (s : String) : String :=
  ⟨s.data.map Char.toLower⟩

/-- `TaskManager.get_task_by_name` (lines 74-79): case-insensitive,
full equality in exact mode, containment otherwise; all matches in
collection order. -/
def get_task_by_name (s : TMState) (title : String) (exact_match : Bool) : List Task :=
  if exact_match then
    s.tasks.filter fun t => pyLower t.title == pyLower title
  else
    s.tasks.filter fun t => pyIn (pyLower title) (pyLower t.title)

/-- `TaskManager.get_pending_tasks` (lines 63-65). -/
def get_pending_tasks (s : TMState) : List Task :=
  s.tasks.filter fun t => t.status == "pending"

/-- `TaskManager.get_task_history` (lines 59-61). -/
def get_task_history (s : TMState) : List Task :=
  s.tasks.filter fun t => t.status == "done" || t.status == "failed"

/-- Descending comparison on `created_at`, the Boolean order that
`sorted(..., key=lambda t: t.created_at, reverse=True)` sorts by. -/
def recentLE (a b : Task) : Bool :=
  decide (b.created_at ≤ a.created_at)

/-- `TaskManager.get_recent_tasks` (lines 55-57): stable sort descending
by `created_at`, then the first `count` entries. -/
def get_recent_tasks (s : TMState) (count : Nat) : List Task :=
  (s.tasks.mergeSort recentLE).take count

/-- Replace the first task with the given id by the image of `f`,
modelling Python's in-place mutation of the object `get_task_by_id`
found. -/
def updateFirst (f : Task → Task) : List Task → Int → List Task
  | [], _ => []
  | t :: ts, i => if t.id == i then f t :: ts else t :: updateFirst f ts i

/-- Remove the first task with the given id (`self.tasks.remove(task)`
on the object `get_task_by_id` found, lines 103-105). -/
def removeFirst : List Task → Int → List Task
  | [], _ => []
  | t :: ts, i => if t.id == i then ts else t :: removeFirst ts i

/-- `TaskManager.update_task_status` (lines 81-88). -/
def update_task_status (s : TMState) (task_id : Int) (status : String) :
    Bool × TMState :=
  match get_task_by_id s task_id with
  | none => (false, s)
  | some _ =>
    let tasks' := updateFirst (fun t => { t with status := status }) s.tasks task_id
    (true, ⟨tasks', save_tasks tasks'⟩)

/-- `TaskManager.edit_task` (lines 90-99): title replaced
unconditionally, `due_date` only when `new_due_date` is not `None`. -/
def edit_task (s : TMState) (task_id : Int) (new_title : String)
    (new_due_date : Option String) : Bool × TMState :=
  match get_task_by_id s task_id with
  | none => (false, s)
  | some _ =>
    let tasks' := updateFirst
      (fun t => { t with title := new_title,
                         due_date := match new_due_date with
                                     | none => t.due_date
                                     | some d => some d })
      s.tasks task_id
    (true, ⟨tasks', save_tasks tasks'⟩)

/-- `TaskManager.remove_task` (lines 101-108). -/
def remove_task (s : TMState) (task_id : Int) : Bool × TMState :=
  match get_task_by_id s task_id with
  | none => (false, s)
  | some _ =>
    let tasks' := removeFirst s.tasks task_id
    (true, ⟨tasks', save_tasks tasks'⟩)

/-- Modelled from the spec: `TaskManager.get_next_id` is called in
`add_task` (line 49) but defined nowhere in the source.  Spec section
4.2: current max id + 1, or 1 if the collection is empty. -/
def get_next_id (tasks : List Task) : Int :=
  match tasks.map Task.id with
  | [] => 1
  | i :: is => is.foldl max i + 1

/-- Modelled from the spec: the intended `TaskManager.add_task` of spec
section 4.2 (fresh id, append, persist).  The source's `add_task`
(lines 47-53) cannot run as written: `get_next_id` does not exist and
the `Task(...)` call mismatches `Task.__init__` (see the C1 theorems),
so the id computation and the constructed record follow the spec. -/
def add_task (s : TMState) (title : String) (due_date : Option String)
    (now : String) : TMState :=
  let t : Task := ⟨get_next_id s.tasks, title, due_date, "pending", now⟩
  let tasks' := s.tasks ++ [t]
  ⟨tasks', save_tasks tasks'⟩

/-- A Python value, for embedding the dynamically-typed
`Task.__init__`. -/
inductive PyVal where
  | none : PyVal
  | int : Int → PyVal
  | str : String → PyVal
deriving DecidableEq, Repr

/-- Python truthiness for the values above. -/
def pyFalsy : PyVal → Bool
  | .none => true
  | .int n => n == 0
  | .str s => s == ""

/-- The attribute set `Task.__init__` (lines 9-13) actually creates.
Note there is no `id` attribute: the constructor never sets one. -/
structure PyTask where
  title : PyVal
  due_date : PyVal
  status : PyVal
  created_at : PyVal
deriving DecidableEq, Repr

/-- `Task.__init__` (lines 9-13) as written: positional parameters
`title`, `due_date`, `status`, `created_at`; `created_at` defaults to
now when falsy. -/
def Task.init (title due_date status created_at : PyVal) (now : String) : PyTask :=
  { title := title, due_date := due_date, status := status,
    created_at := if pyFalsy created_at then .str now else created_at }

/-- One manager operation, for the id-freshness claim. -/
inductive Op where
  | add : String → Option String → String → Op
  | remove : Int → Op
deriving DecidableEq, Repr

/-- Apply one operation to the state. -/
def applyOp (s : TMState) : Op → TMState
  | .add title due now => add_task s title due now
  | .remove i => (remove_task s i).2

/-- Run a sequence of operations. -/
def runOps (s : TMState) : List Op → TMState
  | [] => s
  | op :: ops => runOps (applyOp s op) ops

/-- The ids assigned by the `add` operations of a sequence, in creation
order. -/
def idsProduced (s : TMState) : List Op → List Int
  | [] => []
  | .add title due now :: ops =>
    get_next_id s.tasks :: idsProduced (add_task s title due now) ops
  | .remove i :: ops => idsProduced ((remove_task s i).2) ops

/-! ## Helper lemmas -/

/-- Deserialising a serialised task gives the task back. -/
theorem from_dict_to_dict (t : Task) : Task.from_dict (Task.to_dict t) = .ok t := by
  cases t with
  | mk i ttl d st c => cases d <;> rfl

/-- The load-side comprehension inverts the save-side `map`. -/
theorem mapFromDict_map_to_dict (ts : List Task) :
    mapFromDict (ts.map Task.to_dict) = .ok ts := by
  induction ts with
  | nil => rfl
  | cons t ts ih => simp [mapFromDict, from_dict_to_dict, ih]

/-! ## Claims -/

/-- C2: for every collection of tasks, saving and then loading reproduces
an equivalent collection — the same sequence of tasks with identical ids,
titles, due dates, statuses and created_at timestamps — and the reload
takes the warning-free path. -/
theorem save_load_roundtrip (ts : List Task) :
    load_tasks (save_tasks ts) = .ok (ts, false) := by
  simp [load_tasks, save_tasks, pyIter, mapFromDict_map_to_dict]

/-- C6: `get_pending_tasks` returns exactly the tasks whose status is
"pending", as a sublist of the collection (hence in collection order);
in particular a task whose status is "done" or "failed" never appears. -/
theorem get_pending_tasks_spec (s : TMState) :
    List.Sublist (get_pending_tasks s) s.tasks ∧
    (∀ t ∈ get_pending_tasks s, t.status = "pending") ∧
    (∀ t ∈ s.tasks, t.status = "pending" → t ∈ get_pending_tasks s) := by
  refine ⟨List.filter_sublist _, ?_, ?_⟩ <;> intro t ht <;>
    simp_all [get_pending_tasks, List.mem_filter]

/-- C6 witness at a concrete collection. -/
theorem get_pending_tasks_spec_witness :
    (⟨1, "a", none, "pending", "t1"⟩ : Task) ∈ get_pending_tasks
      ⟨[⟨1, "a", none, "pending", "t1"⟩, ⟨2, "b", none, "done", "t2"⟩], .missing⟩ ∧
    (⟨2, "b", none, "done", "t2"⟩ : Task).status ≠ "pending" :=
  ⟨(get_pending_tasks_spec
      ⟨[⟨1, "a", none, "pending", "t1"⟩, ⟨2, "b", none, "done", "t2"⟩], .missing⟩).2.2
      ⟨1, "a", none, "pending", "t1"⟩ (by decide) (by decide),
   by decide⟩

/-- C10: when no task carries the requested id, `update_task_status`,
`edit_task` and `remove_task` each return `False` and leave the entire
state — the in-memory collection and the backing file — unchanged. -/
theorem notfound_mutators_noop (s : TMState) (i : Int) (st nt : String)
    (nd : Option String) (h : get_task_by_id s i = none) :
    update_task_status s i st = (false, s) ∧
    edit_task s i nt nd = (false, s) ∧
    remove_task s i = (false, s) := by
  refine ⟨?_, ?_, ?_⟩ <;> simp [update_task_status, edit_task, remove_task, h]

/-- C10 witness: id 7 is absent from a one-task collection. -/
theorem notfound_mutators_noop_witness :
    update_task_status ⟨[⟨1, "a", none, "pending", "t1"⟩], .missing⟩ 7 "done" =
      (false, ⟨[⟨1, "a", none, "pending", "t1"⟩], .missing⟩) ∧
    edit_task ⟨[⟨1, "a", none, "pending", "t1"⟩], .missing⟩ 7 "x" none =
      (false, ⟨[⟨1, "a", none, "pending", "t1"⟩], .missing⟩) ∧
    remove_task ⟨[⟨1, "a", none, "pending", "t1"⟩], .missing⟩ 7 =
      (false, ⟨[⟨1, "a", none, "pending", "t1"⟩], .missing⟩) :=
  notfound_mutators_noop ⟨[⟨1, "a", none, "pending", "t1"⟩], .missing⟩ 7 "done" "x" none
    (by rfl)

/-- C3: when no task matches, the lookup and mutation methods report
not-found through their return value instead of raising: `get_task_by_id`
returns `None`, `get_task_by_name` returns an empty list in both exact
and substring mode, and `update_task_status`, `edit_task` and
`remove_task` return `False`. -/
theorem notfound_returns (s : TMState) (i : Int) (ttl st nt : String)
    (nd : Option String) :
    ((∀ t ∈ s.tasks, t.id ≠ i) →
      get_task_by_id s i = none ∧
      (update_task_status s i st).1 = false ∧
      (edit_task s i nt nd).1 = false ∧
      (remove_task s i).1 = false) ∧
    ((∀ t ∈ s.tasks, pyLower t.title ≠ pyLower ttl) →
      get_task_by_name s ttl true = []) ∧
    ((∀ t ∈ s.tasks, pyIn (pyLower ttl) (pyLower t.title) = false) →
      get_task_by_name s ttl false = []) := by
  refine ⟨fun h => ?_, fun h => ?_, fun h => ?_⟩
  · have hnone : get_task_by_id s i = none := by
      simp only [get_task_by_id, List.find?_eq_none]
      intro t ht
      simpa using h t ht
    exact ⟨hnone, by simp [update_task_status, hnone], by simp [edit_task, hnone],
      by simp [remove_task, hnone]⟩
  · have he : get_task_by_name s ttl true =
        s.tasks.filter fun t => pyLower t.title == pyLower ttl := rfl
    rw [he, List.filter_eq_nil_iff]
    intro t ht
    simpa using h t ht
  · have he : get_task_by_name s ttl false =
        s.tasks.filter fun t => pyIn (pyLower ttl) (pyLower t.title) := rfl
    rw [he, List.filter_eq_nil_iff]
    intro t ht
    simp [h t ht]

/-- C3 witness: neither id 7 nor the title "zzz" (in any case) occurs in
a concrete one-task collection. -/
theorem notfound_returns_witness :
    (get_task_by_id ⟨[⟨1, "Buy milk", none, "pending", "t1"⟩], .missing⟩ 7 = none ∧
      (update_task_status ⟨[⟨1, "Buy milk", none, "pending", "t1"⟩], .missing⟩ 7 "done").1 = false ∧
      (edit_task ⟨[⟨1, "Buy milk", none, "pending", "t1"⟩], .missing⟩ 7 "x" none).1 = false ∧
      (remove_task ⟨[⟨1, "Buy milk", none, "pending", "t1"⟩], .missing⟩ 7).1 = false) ∧
    get_task_by_name ⟨[⟨1, "Buy milk", none, "pending", "t1"⟩], .missing⟩ "zzz" true = [] ∧
    get_task_by_name ⟨[⟨1, "Buy milk", none, "pending", "t1"⟩], .missing⟩ "zzz" false = [] :=
  ⟨(notfound_returns ⟨[⟨1, "Buy milk", none, "pending", "t1"⟩], .missing⟩ 7 "zzz" "done" "x" none).1
      (by decide),
   (notfound_returns ⟨[⟨1, "Buy milk", none, "pending", "t1"⟩], .missing⟩ 7 "zzz" "done" "x" none).2.1
      (by decide),
   (notfound_returns ⟨[⟨1, "Buy milk", none, "pending", "t1"⟩], .missing⟩ 7 "zzz" "done" "x" none).2.2
      (by decide)⟩

/-- C1: evaluating `Task.__init__` at the arguments `add_task` passes
(`Task(task_id, title, due_date)`, line 50) shows the slip: with
`task_id = 1`, `title = "Buy milk"`, `due_date = None`, the constructed
object stores the integer id as its title, the title as its due date and
`None` as its status, and it has no id attribute at all (`PyTask` has no
id field because `__init__` never assigns one); in particular its title
is not the string "Buy milk". -/
theorem add_task_ctor_mismatch :
    Task.init (.int 1) (.str "Buy milk") .none .none "2025-01-01T10:00:00" =
      { title := PyVal.int 1, due_date := PyVal.str "Buy milk",
        status := PyVal.none,
        created_at := PyVal.str "2025-01-01T10:00:00" } ∧
    (Task.init (.int 1) (.str "Buy milk") .none .none "2025-01-01T10:00:00").title ≠
      PyVal.str "Buy milk" := by
  exact ⟨rfl, by decide⟩

/-- A successful `find?`-by-id splits the list at the first match. -/
theorem find?_id_decomp (ts : List Task) (i : Int) (t : Task)
    (h : ts.find? (fun u => u.id == i) = some t) :
    ∃ pre post, ts = pre ++ t :: post ∧ (∀ u ∈ pre, u.id ≠ i) ∧ t.id = i := by
  induction ts with
  | nil => simp [List.find?] at h
  | cons a ts ih =>
    by_cases ha : a.id = i
    · rw [List.find?_cons_of_pos _ (by simpa using ha)] at h
      obtain rfl : a = t := by simpa using h
      exact ⟨[], ts, rfl, by simp, ha⟩
    · rw [List.find?_cons_of_neg _ (by simpa using ha)] at h
      obtain ⟨pre, post, h1, h2, h3⟩ := ih h
      exact ⟨a :: pre, post, by simp [h1], by simpa [ha] using h2, h3⟩

/-- `updateFirst` rewrites exactly the first matching element. -/
theorem updateFirst_append (f : Task → Task) (pre : List Task) (t : Task)
    (post : List Task) (i : Int) (hpre : ∀ u ∈ pre, u.id ≠ i) (ht : t.id = i) :
    updateFirst f (pre ++ t :: post) i = pre ++ f t :: post := by
  induction pre with
  | nil => simp [updateFirst, ht]
  | cons a pre ih =>
    have ha : a.id ≠ i := hpre a (by simp)
    simp only [List.cons_append, updateFirst, beq_iff_eq, if_neg ha]
    exact congrArg (List.cons a) (ih fun u hu => hpre u (by simp [hu]))

/-- `removeFirst` deletes exactly the first matching element. -/
theorem removeFirst_append (pre : List Task) (t : Task) (post : List Task)
    (i : Int) (hpre : ∀ u ∈ pre, u.id ≠ i) (ht : t.id = i) :
    removeFirst (pre ++ t :: post) i = pre ++ post := by
  induction pre with
  | nil => simp [removeFirst, ht]
  | cons a pre ih =>
    have ha : a.id ≠ i := hpre a (by simp)
    simp only [List.cons_append, removeFirst, beq_iff_eq, if_neg ha]
    exact congrArg (List.cons a) (ih fun u hu => hpre u (by simp [hu]))

/-- C7: when `edit_task` finds a matching task it returns `True`,
persists, replaces that task's title unconditionally, replaces its
due date only when a new one is explicitly supplied (absence leaves it
unchanged), keeps the task's id, status and created_at, and leaves every
other task untouched. -/
theorem edit_task_spec (s : TMState) (i : Int) (nt : String) (nd : Option String)
    (t : Task) (h : get_task_by_id s i = some t) :
    (edit_task s i nt nd).1 = true ∧
    (edit_task s i nt nd).2.file = save_tasks (edit_task s i nt nd).2.tasks ∧
    ∃ pre post,
      s.tasks = pre ++ t :: post ∧
      (edit_task s i nt nd).2.tasks =
        pre ++ { id := t.id, title := nt,
                 due_date := match nd with | none => t.due_date | some d => some d,
                 status := t.status, created_at := t.created_at } :: post := by
  obtain ⟨pre, post, hdec, hpre, hid⟩ := find?_id_decomp s.tasks i t h
  refine ⟨by simp [edit_task, h], by simp [edit_task, h], pre, post, hdec, ?_⟩
  simp only [edit_task, h]
  rw [hdec, updateFirst_append _ pre t post i hpre hid]

/-- C7 witness: editing task 1 with no new due date keeps the stored due
date; the theorem is applied at a concrete one-task state. -/
theorem edit_task_spec_witness :
    (edit_task ⟨[⟨1, "Old", some "2024-12-31", "pending", "t1"⟩], .missing⟩
        1 "New title" none).1 = true ∧
    (edit_task ⟨[⟨1, "Old", some "2024-12-31", "pending", "t1"⟩], .missing⟩
        1 "New title" none).2.file =
      save_tasks (edit_task ⟨[⟨1, "Old", some "2024-12-31", "pending", "t1"⟩], .missing⟩
        1 "New title" none).2.tasks ∧
    ∃ pre post,
      [(⟨1, "Old", some "2024-12-31", "pending", "t1"⟩ : Task)] =
        pre ++ (⟨1, "Old", some "2024-12-31", "pending", "t1"⟩ : Task) :: post ∧
      (edit_task ⟨[⟨1, "Old", some "2024-12-31", "pending", "t1"⟩], .missing⟩
          1 "New title" none).2.tasks =
        pre ++ (⟨1, "New title", some "2024-12-31", "pending", "t1"⟩ : Task) :: post :=
  edit_task_spec ⟨[⟨1, "Old", some "2024-12-31", "pending", "t1"⟩], .missing⟩
    1 "New title" none ⟨1, "Old", some "2024-12-31", "pending", "t1"⟩ (by decide)

/-- C9: in a state with pairwise-distinct ids (the spec's standing
invariant) in which a task with the given id exists, `remove_task`
returns `True`, deletes exactly that task, persists the new collection,
and a subsequent `get_task_by_id` on the new state returns `None`. -/
theorem remove_task_spec (s : TMState) (i : Int) (t : Task)
    (hnd : (s.tasks.map Task.id).Nodup)
    (h : get_task_by_id s i = some t) :
    (remove_task s i).1 = true ∧
    (remove_task s i).2.file = save_tasks (remove_task s i).2.tasks ∧
    (∃ pre post, s.tasks = pre ++ t :: post ∧
      (remove_task s i).2.tasks = pre ++ post) ∧
    get_task_by_id (remove_task s i).2 i = none := by
  obtain ⟨pre, post, hdec, hpre, hid⟩ := find?_id_decomp s.tasks i t h
  have htasks : (remove_task s i).2.tasks = pre ++ post := by
    simp only [remove_task, h]
    rw [hdec, removeFirst_append pre t post i hpre hid]
  have hpost : ∀ u ∈ post, u.id ≠ i := by
    intro u hu
    rw [hdec] at hnd
    simp only [List.map_append, List.map_cons] at hnd
    have hm := List.nodup_middle.mp hnd
    have : t.id ∉ pre.map Task.id ++ post.map Task.id := (List.nodup_cons.mp hm).1
    intro hui
    apply this
    apply List.mem_append_right
    have htu : t.id = u.id := by rw [hid, hui]
    rw [htu]
    exact List.mem_map_of_mem Task.id hu
  refine ⟨by simp [remove_task, h], by simp [remove_task, h], ⟨pre, post, hdec, htasks⟩, ?_⟩
  simp only [get_task_by_id, htasks, List.find?_eq_none]
  intro u hu
  rcases List.mem_append.mp hu with hul | hur
  · simpa using hpre u hul
  · simpa using hpost u hur

/-- C9 witness: removing task 2 from a concrete two-task state. -/
theorem remove_task_spec_witness :
    (remove_task ⟨[⟨1, "a", none, "pending", "t1"⟩, ⟨2, "b", none, "done", "t2"⟩],
        .missing⟩ 2).1 = true ∧
    (remove_task ⟨[⟨1, "a", none, "pending", "t1"⟩, ⟨2, "b", none, "done", "t2"⟩],
        .missing⟩ 2).2.file =
      save_tasks (remove_task ⟨[⟨1, "a", none, "pending", "t1"⟩,
        ⟨2, "b", none, "done", "t2"⟩], .missing⟩ 2).2.tasks ∧
    (∃ pre post,
      [(⟨1, "a", none, "pending", "t1"⟩ : Task), ⟨2, "b", none, "done", "t2"⟩] =
        pre ++ (⟨2, "b", none, "done", "t2"⟩ : Task) :: post ∧
      (remove_task ⟨[⟨1, "a", none, "pending", "t1"⟩, ⟨2, "b", none, "done", "t2"⟩],
          .missing⟩ 2).2.tasks = pre ++ post) ∧
    get_task_by_id (remove_task ⟨[⟨1, "a", none, "pending", "t1"⟩,
        ⟨2, "b", none, "done", "t2"⟩], .missing⟩ 2).2 2 = none :=
  remove_task_spec ⟨[⟨1, "a", none, "pending", "t1"⟩, ⟨2, "b", none, "done", "t2"⟩],
    .missing⟩ 2 ⟨2, "b", none, "done", "t2"⟩ (by decide) (by decide)

/-- Delete one key from a JSON object (used to build records that are
missing an expected field); other values are left alone. -/
def dropKey (k : String) (j : Json) : Json :=
  match j with
  | .obj kvs => .obj (kvs.filter fun kv => kv.1 != k)
  | x => x

/-- Deserialising a serialised task with one required key removed raises
`KeyError`, for each of the five required keys. -/
theorem from_dict_dropKey (t : Task) (k : String)
    (hk : k ∈ ["title", "due_date", "status", "created_at", "id"]) :
    Task.from_dict (dropKey k (Task.to_dict t)) = .error .keyError := by
  simp only [List.mem_cons, List.not_mem_nil, or_false] at hk
  cases t with
  | mk i ttl d st c =>
    rcases hk with rfl | rfl | rfl | rfl | rfl <;> cases d <;> rfl

/-- A comprehension over well-formed serialised tasks followed by a
failing tail fails with the tail's exception. -/
theorem mapFromDict_append_error (ts : List Task) (l : List Json) (e : PyErr)
    (h : mapFromDict l = .error e) :
    mapFromDict (ts.map Task.to_dict ++ l) = .error e := by
  induction ts with
  | nil => simpa using h
  | cons t ts ih => simp [mapFromDict, from_dict_to_dict, ih]

/-- C4 counterexample: a backing file whose content is valid JSON but
not a list — here the number 5 — makes `load_tasks` raise an uncaught
`TypeError` (iterating a non-iterable; the `except` clause catches only
`json.JSONDecodeError` and `KeyError`), rather than resetting to an
empty collection with a warning. -/
theorem load_tasks_nonlist_raises :
    load_tasks (.content (.num 5)) = .error .typeError := rfl

/-- C4 amended: a missing backing file yields an empty collection with
no warning; a file that fails JSON parsing, or one holding an array of
task records in which some record lacks a required key, yields an empty
collection with the non-fatal warning and no exception.  (A parsed
top-level value that is not iterable instead raises `TypeError`; see the
counterexample.) -/
theorem load_tasks_spec (ts rest : List Task) (t : Task) (k : String)
    (hk : k ∈ ["title", "due_date", "status", "created_at", "id"]) :
    load_tasks .missing = .ok ([], false) ∧
    load_tasks .invalid = .ok ([], true) ∧
    load_tasks (.content (.arr (ts.map Task.to_dict ++
      dropKey k (Task.to_dict t) :: rest.map Task.to_dict))) = .ok ([], true) := by
  refine ⟨rfl, rfl, ?_⟩
  have hbad : mapFromDict (dropKey k (Task.to_dict t) :: rest.map Task.to_dict) =
      .error .keyError := by
    simp [mapFromDict, from_dict_dropKey t k hk]
  simp [load_tasks, pyIter, mapFromDict_append_error ts _ _ hbad]

/-- C4 witness: a two-record file whose second record lacks its title. -/
theorem load_tasks_spec_witness :
    load_tasks .missing = .ok ([], false) ∧
    load_tasks .invalid = .ok ([], true) ∧
    load_tasks (.content (.arr ([(⟨1, "a", none, "pending", "t1"⟩ : Task)].map Task.to_dict ++
      dropKey "title" (Task.to_dict ⟨2, "b", none, "done", "t2"⟩) ::
        ([] : List Task).map Task.to_dict))) = .ok ([], true) :=
  load_tasks_spec [⟨1, "a", none, "pending", "t1"⟩] [] ⟨2, "b", none, "done", "t2"⟩
    "title" (by simp)

/-- Every element of an integer list is bounded by its left max-fold. -/
theorem le_foldl_max (i : Int) (is : List Int) :
    i ≤ is.foldl max i ∧ ∀ x ∈ is, x ≤ is.foldl max i := by
  induction is generalizing i with
  | nil => simp
  | cons a is ih =>
    refine ⟨le_trans (le_max_left i a) (ih (max i a)).1, ?_⟩
    intro x hx
    rcases List.mem_cons.mp hx with rfl | hx'
    · exact le_trans (le_max_right i x) (ih (max i x)).1
    · exact (ih (max i a)).2 x hx'

/-- The freshly computed id exceeds every id in the collection. -/
theorem get_next_id_gt (tasks : List Task) :
    ∀ t ∈ tasks, t.id < get_next_id tasks := by
  intro t ht
  have hmem : t.id ∈ tasks.map Task.id := List.mem_map_of_mem Task.id ht
  unfold get_next_id
  cases htasks : tasks.map Task.id with
  | nil => rw [htasks] at hmem; simp at hmem
  | cons j js =>
    rw [htasks] at hmem
    have hle : t.id ≤ js.foldl max j := by
      rcases List.mem_cons.mp hmem with heq | h'
      · rw [heq]
        exact (le_foldl_max j js).1
      · exact (le_foldl_max j js).2 t.id h'
    show t.id < js.foldl max j + 1
    omega

/-- `removeFirst` yields a sublist of its input. -/
theorem removeFirst_sublist (ts : List Task) (i : Int) :
    List.Sublist (removeFirst ts i) ts := by
  induction ts with
  | nil => simp [removeFirst]
  | cons a ts ih =>
    simp only [removeFirst]
    by_cases ha : (a.id == i) = true
    · rw [if_pos ha]
      exact List.sublist_cons_self a ts
    · rw [if_neg ha]
      exact List.Sublist.cons₂ a ih

/-- One operation preserves distinctness of the collection's ids. -/
theorem applyOp_nodup (s : TMState) (op : Op)
    (h : (s.tasks.map Task.id).Nodup) :
    ((applyOp s op).tasks.map Task.id).Nodup := by
  cases op with
  | add title due now =>
    simp only [applyOp, add_task, List.map_append, List.map_cons, List.map_nil]
    rw [List.nodup_append]
    refine ⟨h, List.nodup_singleton _, ?_⟩
    intro x hx hx'
    obtain ⟨t, ht, rfl⟩ := List.mem_map.mp hx
    have := get_next_id_gt s.tasks t ht
    simp only [List.mem_singleton] at hx'
    omega
  | remove i =>
    simp only [applyOp, remove_task]
    cases hfind : get_task_by_id s i with
    | none => exact h
    | some t =>
      exact List.Nodup.sublist ((removeFirst_sublist s.tasks i).map Task.id) h

/-- C8 counterexample: starting from an empty manager, the sequence
add, add, remove 2, add assigns ids 1, 2, 2 — the id of the removed
task is reused by the next add, so the ids produced are neither pairwise
distinct nor strictly increasing in creation order. -/
theorem ids_reused_counterexample :
    idsProduced ⟨[], .missing⟩
      [.add "a" none "t1", .add "b" none "t2", .remove 2, .add "c" none "t3"] =
      [1, 2, 2] ∧
    ¬ List.Pairwise (fun a b => a < b) ([1, 2, 2] : List Int) ∧
    ¬ ([1, 2, 2] : List Int).Nodup := by
  refine ⟨by decide, by decide, by decide⟩

/-- C8 amended: starting from any state whose ids are pairwise distinct,
after any sequence of add and remove operations the ids in the
collection are still pairwise distinct, and every id present is strictly
below the id the next add would assign (each add assigns a fresh id
relative to the current collection).  Ids of removed tasks are not
protected: the claim's never-reused part fails (see the
counterexample). -/
theorem ids_distinct_invariant (s : TMState) (ops : List Op)
    (hnd : (s.tasks.map Task.id).Nodup) :
    ((runOps s ops).tasks.map Task.id).Nodup ∧
    ∀ t ∈ (runOps s ops).tasks, t.id < get_next_id (runOps s ops).tasks := by
  refine ⟨?_, get_next_id_gt _⟩
  induction ops generalizing s with
  | nil => exact hnd
  | cons op ops ih => exact ih (applyOp s op) (applyOp_nodup s op hnd)

/-- C8 amended witness: the invariant applied to the concrete sequence
of the counterexample, starting from the empty state. -/
theorem ids_distinct_invariant_witness :
    ((runOps ⟨[], .missing⟩
        [.add "a" none "t1", .add "b" none "t2", .remove 2, .add "c" none "t3"]).tasks.map
        Task.id).Nodup ∧
    ∀ t ∈ (runOps ⟨[], .missing⟩
        [.add "a" none "t1", .add "b" none "t2", .remove 2, .add "c" none "t3"]).tasks,
      t.id < get_next_id (runOps ⟨[], .missing⟩
        [.add "a" none "t1", .add "b" none "t2", .remove 2, .add "c" none "t3"]).tasks :=
  ids_distinct_invariant ⟨[], .missing⟩
    [.add "a" none "t1", .add "b" none "t2", .remove 2, .add "c" none "t3"] (by decide)

/-- C5: `get_recent_tasks count` returns at most `count` tasks, ordered
by `created_at` descending; its elements come from the collection; and
for every timestamp value the entries carrying it appear as a prefix of
the collection's own entries with that timestamp, i.e. ties are kept in
collection order (stability).  Being a pure function of the state, it
does not modify the collection. -/
theorem get_recent_tasks_spec (s : TMState) (count : Nat) :
    (get_recent_tasks s count).length ≤ count ∧
    List.Pairwise (fun a b => b.created_at ≤ a.created_at) (get_recent_tasks s count) ∧
    (∀ t ∈ get_recent_tasks s count, t ∈ s.tasks) ∧
    ∀ x : String,
      (get_recent_tasks s count).filter (fun t => t.created_at == x) <+:
        s.tasks.filter (fun t => t.created_at == x) := by
  have htr : ∀ (a b c : Task), recentLE a b → recentLE b c → recentLE a c := by
    intro a b c hab hbc
    simp only [recentLE, decide_eq_true_eq] at *
    exact le_trans hbc hab
  have hto : ∀ (a b : Task), recentLE a b || recentLE b a := by
    intro a b
    simp only [recentLE, Bool.or_eq_true, decide_eq_true_eq]
    exact le_total _ _
  refine ⟨List.length_take_le _ _, ?_, ?_, ?_⟩
  · have hs := List.sorted_mergeSort htr hto s.tasks
    have hs' := List.Pairwise.sublist
      (List.take_sublist count (s.tasks.mergeSort recentLE)) hs
    exact hs'.imp fun h => by simpa [recentLE] using h
  · intro t ht
    have hmem : t ∈ s.tasks.mergeSort recentLE :=
      (List.take_sublist count (s.tasks.mergeSort recentLE)).subset ht
    exact List.mem_mergeSort.mp hmem
  · intro x
    have hpair : List.Pairwise (fun a b => recentLE a b)
        (s.tasks.filter fun t => t.created_at == x) := by
      apply List.pairwise_of_forall_mem_list
      intro a ha b hb
      have ha' := (List.mem_filter.mp ha).2
      have hb' := (List.mem_filter.mp hb).2
      simp only [beq_iff_eq] at ha' hb'
      simp [recentLE, ha', hb']
    have hfsub : List.Sublist (s.tasks.filter fun t => t.created_at == x)
        (s.tasks.mergeSort recentLE) :=
      List.sublist_mergeSort htr hto hpair (List.filter_sublist s.tasks)
    have hperm : List.Perm
        ((s.tasks.mergeSort recentLE).filter fun t => t.created_at == x)
        (s.tasks.filter fun t => t.created_at == x) :=
      (List.mergeSort_perm s.tasks recentLE).filter _
    have hsub2 := hfsub.filter fun t => t.created_at == x
    rw [List.filter_filter] at hsub2
    have hself : (s.tasks.filter fun t =>
        (t.created_at == x) && (t.created_at == x)) =
        s.tasks.filter fun t => t.created_at == x := by
      simp
    rw [hself] at hsub2
    have heq2 : (s.tasks.filter fun t => t.created_at == x) =
        ((s.tasks.mergeSort recentLE).filter fun t => t.created_at == x) :=
      hsub2.eq_of_length hperm.length_eq.symm
    have hpref := ( List.take_prefix count (s.tasks.mergeSort recentLE)).filter
      fun t => t.created_at == x
    rw [← heq2] at hpref
    exact hpref

/-- C5 witness at a concrete one-task state and count 3. -/
theorem get_recent_tasks_spec_witness :
    (get_recent_tasks ⟨[⟨1, "a", none, "pending", "t1"⟩], .missing⟩ 3).length ≤ 3 ∧
    (⟨1, "a", none, "pending", "t1"⟩ : Task) ∈
      (⟨[⟨1, "a", none, "pending", "t1"⟩], .missing⟩ : TMState).tasks ∧
    (get_recent_tasks ⟨[⟨1, "a", none, "pending", "t1"⟩], .missing⟩ 3).filter
        (fun t => t.created_at == "t1") <+:
      (⟨[⟨1, "a", none, "pending", "t1"⟩], .missing⟩ : TMState).tasks.filter
        (fun t => t.created_at == "t1") :=
  ⟨(get_recent_tasks_spec ⟨[⟨1, "a", none, "pending", "t1"⟩], .missing⟩ 3).1,
   (get_recent_tasks_spec ⟨[⟨1, "a", none, "pending", "t1"⟩], .missing⟩ 3).2.2.1
      ⟨1, "a", none, "pending", "t1"⟩ (by simp [get_recent_tasks]),
   (get_recent_tasks_spec ⟨[⟨1, "a", none, "pending", "t1"⟩], .missing⟩ 3).2.2.2 "t1"⟩

end TaskApp
